/-
Verification of the butler HTTP server (src/src/main.rs) against its
natural-language specification.  The Rust code is shallowly embedded:
pure parsing and response construction become Lean functions; the file
system is passed in as an explicit read function (`String → Option (List Nat)`)
and a write-success predicate; gzip compression is passed in as an explicit
function on byte lists, since the spec treats it as a library primitive.
Bytes are modelled as `Nat` (each < 256 in reality, irrelevant to the claims).
-/
import Mathlib

namespace Butler

/-- UTF-8 bytes of a string, as `Nat`s; models Rust `String::into_bytes`
(`str::len` is the length of this list, exactly as in Rust). -/
def strBytes (s : String) : List Nat :=
  (s.data.flatMap (fun c => String.utf8EncodeChar c)).map (fun b => b.toNat)

/-- Split a character list at every character satisfying `p`, keeping empty
segments; models Rust `str::split` with a char pattern (always at least one
segment). -/
def splitBy (p : Char → Bool) : List Char → List (List Char)
  | [] => [[]]
  | c :: cs =>
    if p c then [] :: splitBy p cs
    else
      match splitBy p cs with
      | [] => [[c]]
      | h :: t => (c :: h) :: t

/-- Split a character list at every (non-overlapping, leftmost) occurrence of
the two-character sequence CR LF; models Rust `str::split("\r\n")`. -/
def splitCRLF : List Char → List (List Char)
  | [] => [[]]
  | [c] => [[c]]
  | c1 :: c2 :: cs =>
    if c1 = '\r' ∧ c2 = '\n' then [] :: splitCRLF cs
    else
      match splitCRLF (c2 :: cs) with
      | [] => [[c1]]
      | h :: t => (c1 :: h) :: t

/-- Models Rust `str::split_terminator("\r\n")`: like split, but a trailing
empty segment (arising when the input ends with the terminator) is dropped. -/
def splitTermCRLF (l : List Char) : List (List Char) :=
  let parts := splitCRLF l
  if parts.getLast? = some [] then parts.dropLast else parts

/-- Models Rust `str::trim` (strip leading and trailing whitespace). -/
def trimChars (l : List Char) : List Char :=
  ((l.dropWhile Char.isWhitespace).reverse.dropWhile Char.isWhitespace).reverse

/-- Models Rust `str::to_lowercase` (ASCII-relevant part). -/
def lowerStr (s : String) : String :=
  String.mk (s.data.map Char.toLower)

/-- Models Rust `str::split_whitespace`: split on whitespace, discarding
empty segments. -/
def splitWs (s : String) : List String :=
  ((splitBy Char.isWhitespace s.data).filter (fun seg => !seg.isEmpty)).map String.mk

inductive Method where
  | Get
  | Post
deriving DecidableEq

inductive ContentType where
  | TextPlain
  | ApplicationOctetStream
deriving DecidableEq

inductive Header where
  | ContentType (ct : ContentType)
  | ContentLength (n : Nat)
  | UserAgent (s : String)
  | AcceptEncoding
  | ContentEncoding
deriving DecidableEq

structure RequestLine where
  method : Method
  url : String
deriving DecidableEq

structure Request where
  line : RequestLine
  headers : List Header
  body : Option String
deriving DecidableEq

structure Response where
  status_code : Nat
  headers : List Header
  body : Option (List Nat)
deriving DecidableEq

/-- Models `impl FromStr for Method`: case-insensitive match on get/post. -/
def Method.fromStr (s : String) : Except String Method :=
  if lowerStr s = ("get") then .ok .Get
  else if lowerStr s = ("post") then .ok .Post
  else .error ("is not a valid HTTP method")

/-- Models `impl FromStr for RequestLine`: first whitespace token is the
method, second is the URL; missing tokens or a bad method are errors. -/
def RequestLine.fromStr (s : String) : Except String RequestLine :=
  match splitWs s with
  | [] => .error ("could not find HTTP method in request line")
  | m :: rest =>
    match Method.fromStr m with
    | .error e => .error e
    | .ok method =>
      match rest with
      | [] => .error ("could find URL in request line")
      | url :: _ => .ok ⟨method, url⟩

/-- Models `impl FromStr for Header`: split on every colon, trim each part,
take the first part as the name and the second as the value; only
User-Agent (any value) and Accept-Encoding (value exactly gzip) parse. -/
def Header.fromStr (s : String) : Except String Header :=
  match (splitBy (fun c => c = ':') s.data).map trimChars with
  | [] => .error ("failed to find header name")
  | name :: rest =>
    match rest with
    | [] => .error ("failed to find header value, it may be missing a colon")
    | value :: _ =>
      if lowerStr (String.mk name) = ("user-agent") then
        .ok (.UserAgent (String.mk value))
      else if lowerStr (String.mk name) = ("accept-encoding") then
        if String.mk value = ("gzip") then .ok .AcceptEncoding
        else .error ("unknown encoding, only gzip is supported")
      else .error ("unknown header")

/-- Models `impl FromStr for Request`: split the input on CR LF with
terminator semantics; the first segment is the request line (its failure
aborts the parse); segments up to the first empty one are headers, each
parsed individually with failures dropped; the single next segment, if
any, is the body. -/
def Request.fromStr (s : String) : Except String Request :=
  match splitTermCRLF s.data with
  | [] => .error ("did not find request line in request")
  | lineSeg :: rest =>
    match RequestLine.fromStr (String.mk lineSeg) with
    | .error e => .error e
    | .ok line =>
      let headerSegs := rest.takeWhile (fun seg => !seg.isEmpty)
      let headers := headerSegs.filterMap
        (fun seg => (Header.fromStr (String.mk seg)).toOption)
      let body := ((rest.drop (headerSegs.length + 1)).head?).map String.mk
      .ok ⟨line, headers, body⟩

example : Request.fromStr ("GET /abc HTTP/1.1\r\nUser-Agent: foo\r\n\r\nbody") =
    .ok ⟨⟨.Get, ("/abc")⟩, [.UserAgent ("foo")], some ("body")⟩ := by rfl

example : Request.fromStr ("GET / HTTP/1.1\r\n\r\nline1\r\nline2") =
    .ok ⟨⟨.Get, ("/")⟩, [], some ("line1")⟩ := by rfl

example : Header.fromStr ("User-Agent: a:b") = .ok (.UserAgent ("a")) := by rfl

example : strBytes ("hi") = [104, 105] := by decide

/-- Models `Response::empty`. -/
def Response.empty : Response := ⟨200, [], none⟩

/-- Models `Response::not_found`. -/
def Response.notFound : Response := ⟨404, [], none⟩

/-- Models `Response::created`. -/
def Response.created : Response := ⟨201, [], none⟩

/-- Models `Response::text`: 200, text/plain, Content-Length = byte length
of the text, body = the text's bytes. -/
def Response.text (text : String) : Response :=
  ⟨200,
   [Header.ContentType ContentType.TextPlain,
    Header.ContentLength (strBytes text).length],
   some (strBytes text)⟩

/-- Models `Response::file`.  The File Gateway is the explicit function
`fs : String → Option (List Nat)`: `none` models any open/read failure
(the code returns `not_found` for both), `some content` a successful read
of the file's bytes. -/
def Response.file (fs : String → Option (List Nat)) (fileName : String) :
    Response :=
  match fs fileName with
  | none => Response.notFound
  | some content =>
    ⟨200,
     [Header.ContentType ContentType.ApplicationOctetStream,
      Header.ContentLength content.length],
     some content⟩

/-- Models `matches!(header, Header::ContentLength(_))`. -/
def isCL : Header → Bool
  | .ContentLength _ => true
  | _ => false

/-- Replace the first `ContentLength` header with `ContentLength n`;
`none` models the `expect` panic in `Response::compressed` when no
Content-Length header is present alongside a body. -/
def replaceFirstCL : List Header → Nat → Option (List Header)
  | [], _ => none
  | h :: t, n =>
    if isCL h then some (Header.ContentLength n :: t)
    else (replaceFirstCL t n).map (fun t' => h :: t')

/-- Models `Response::compressed`, with the gzip primitive passed in as
`gz`: append a `ContentEncoding` header; if a body exists, replace it by
its compressed bytes and overwrite the first `ContentLength` header with
the new byte length (`none` models the panic when that header is absent). -/
def Response.compressed (gz : List Nat → List Nat) (r : Response) :
    Option Response :=
  let hs := r.headers ++ [Header.ContentEncoding]
  match r.body with
  | none => some { r with headers := hs }
  | some body =>
    let nb := gz body
    (replaceFirstCL hs nb.length).map
      (fun hs' => { r with headers := hs', body := some nb })

/-- Models the `find_map` over headers in the `/user-agent` branch of
`handle_connection`. -/
def findUserAgent : List Header → Option String
  | [] => none
  | h :: t =>
    match h with
    | .UserAgent a => some a
    | _ => findUserAgent t

/-- Character-list core of `str::strip_prefix`. -/
def dropPre : List Char → List Char → Option (List Char)
  | [], s => some s
  | _ :: _, [] => none
  | p :: ps, c :: cs => if c = p then dropPre ps cs else none

/-- Models Rust `str::strip_prefix` with a string pattern. -/
def stripPre (p s : String) : Option String :=
  (dropPre p.data s.data).map String.mk

/-- Models the routing `match` in `handle_connection` (lines 64-100),
before the compression gate.  The File Gateway is explicit: `fs` is the
read function and `wok` tells whether a write of the given bytes to the
given name succeeds.  The second component records the file writes
issued, in order (the code issues at most one). -/
def route (fs : String → Option (List Nat)) (wok : String → List Nat → Bool)
    (rq : Request) : Except String Response × List (String × List Nat) :=
  if rq.line.url = ("/") then (.ok Response.empty, [])
  else if rq.line.url = ("/user-agent") then
    match findUserAgent rq.headers with
    | some agent => (.ok (Response.text agent), [])
    | none => (.error ("request does not have a User-Agent header"), [])
  else
    match stripPre ("/echo/") rq.line.url with
    | some str => (.ok (Response.text str), [])
    | none =>
      match stripPre ("/files/") rq.line.url with
      | some fileName =>
        match rq.line.method with
        | .Get => (.ok (Response.file fs fileName), [])
        | .Post =>
          match rq.body with
          | none => (.error ("POST request to /files must have a body"), [])
          | some contents =>
            if wok fileName (strBytes contents)
            then (.ok Response.created, [(fileName, strBytes contents)])
            else (.error ("failed to write file to disk"),
                  [(fileName, strBytes contents)])
      | none => (.ok Response.notFound, [])

/-- Models `handle_connection` after parsing: route, then apply
`Response::compressed` iff the request headers contain `AcceptEncoding`
(lines 102-104).  An error result means the connection is closed with no
response bytes written. -/
def handleRequest (fs : String → Option (List Nat))
    (wok : String → List Nat → Bool) (gz : List Nat → List Nat)
    (rq : Request) : Except String Response × List (String × List Nat) :=
  match route fs wok rq with
  | (.error e, ws) => (.error e, ws)
  | (.ok resp, ws) =>
    if rq.headers.contains Header.AcceptEncoding then
      match resp.compressed gz with
      | some r => (.ok r, ws)
      | none => (.error ("panic: expected Content-Length header"), ws)
    else (.ok resp, ws)

/-- Models the whole `handle_connection` pipeline on a raw request string:
parse, route, optionally compress. -/
def handleRaw (fs : String → Option (List Nat))
    (wok : String → List Nat → Bool) (gz : List Nat → List Nat)
    (raw : String) : Except String Response :=
  match Request.fromStr raw with
  | .error e => .error e
  | .ok rq => (handleRequest fs wok gz rq).1

/-- Models the status-line `match` in `Response::write_to`: `none` models
the `todo!` panic on an unimplemented status code. -/
def statusText (code : Nat) : Option String :=
  if code = 200 then some ("200 OK")
  else if code = 201 then some ("201 Created")
  else if code = 404 then some ("404 Not Found")
  else none

/-- Models `ContentType`'s `Display` impl. -/
def ContentType.display : ContentType → String
  | .TextPlain => ("text/plain")
  | .ApplicationOctetStream => ("application/octet-stream")

/-- Models `Header`'s `Display` impl: `none` models the `todo!` panic on
the `UserAgent` and `AcceptEncoding` variants. -/
def Header.display : Header → Option String
  | .ContentType ct => some (("Content-Type: ") ++ ct.display)
  | .ContentLength n => some (("Content-Length: ") ++ toString n)
  | .ContentEncoding => some ("Content-Encoding: gzip")
  | _ => none

/-- Value of the first `ContentLength` header, if any (the one
`Response::compressed` updates and `write_to` emits first). -/
def firstCL : List Header → Option Nat
  | [] => none
  | .ContentLength n :: _ => some n
  | _ :: t => firstCL t

/-- Assembles a raw request string from a request line, header lines and
an optional body tail, in the wire shape `line CRLF (hdr CRLF)* CRLF tail`.
Statement-side construct used to quantify over well-formed raw requests. -/
def assemble (line : String) (hdrs : List String) (tail : Option String) :
    String :=
  String.mk (line.data ++ '\r' :: '\n' ::
    ((hdrs.flatMap (fun h => h.data ++ ['\r', '\n'])) ++ '\r' :: '\n' ::
      (tail.getD ("")).data))

example :
    handleRaw (fun _ => none) (fun _ _ => true) (fun b => b)
      ("GET / HTTP/1.1\r\nAccept-Encoding: gzip\r\n\r\n") =
    .ok ⟨200, [Header.ContentEncoding], none⟩ := by rfl

example :
    handleRaw (fun _ => none) (fun _ _ => true) (fun b => b)
      ("GET /echo/hello HTTP/1.1\r\nAccept-Encoding: gzip\r\n\r\n") =
    .ok ⟨200,
      [Header.ContentType ContentType.TextPlain,
       Header.ContentLength 5, Header.ContentEncoding],
      some (strBytes ("hello"))⟩ := by rfl

example :
    assemble ("GET / HTTP/1.1") [("User-Agent: x")] (some ("b")) =
    ("GET / HTTP/1.1\r\nUser-Agent: x\r\n\r\nb") := by rfl

/-! Helper lemmas about strings and the split functions. -/

theorem data_append (s t : String) : (s ++ t).data = s.data ++ t.data := rfl

theorem mk_data (s : String) : String.mk s.data = s := rfl

theorem splitBy_ne_nil (p : Char → Bool) (l : List Char) :
    splitBy p l ≠ [] := by
  cases l with
  | nil => simp [splitBy]
  | cons c cs =>
    simp only [splitBy]
    split
    · simp
    · split <;> simp

theorem splitBy_nosplit (p : Char → Bool) (l : List Char)
    (h : ∀ c ∈ l, p c = false) : splitBy p l = [l] := by
  induction l with
  | nil => rfl
  | cons c cs ih =>
    have hc : p c = false := h c (by simp)
    have ih' := ih (fun x hx => h x (by simp [hx]))
    simp [splitBy, hc, ih']

theorem splitBy_append_sep (p : Char → Bool) (a b : List Char) (c₀ : Char)
    (hc : p c₀ = true) (ha : ∀ c ∈ a, p c = false) :
    splitBy p (a ++ c₀ :: b) = a :: splitBy p b := by
  induction a with
  | nil => simp [splitBy, hc]
  | cons c cs ih =>
    have hcf : p c = false := ha c (by simp)
    have ih' := ih (fun x hx => ha x (by simp [hx]))
    simp [splitBy, hcf, ih']

theorem splitCRLF_ne_nil (l : List Char) : splitCRLF l ≠ [] := by
  match l with
  | [] => simp [splitCRLF]
  | [c] => simp [splitCRLF]
  | c1 :: c2 :: cs =>
    simp only [splitCRLF]
    split
    · simp
    · split <;> simp

theorem splitCRLF_nosplit (l : List Char) (h : '\r' ∉ l) :
    splitCRLF l = [l] := by
  induction l with
  | nil => rfl
  | cons c cs ih =>
    have hc : c ≠ '\r' := by
      intro he; exact h (by simp [he])
    have ih' := ih (fun hx => h (by simp [hx]))
    cases cs with
    | nil => rfl
    | cons c2 cs' => simp [splitCRLF, hc, ih']

theorem splitCRLF_append (a b : List Char) (ha : '\r' ∉ a) :
    splitCRLF (a ++ '\r' :: '\n' :: b) = a :: splitCRLF b := by
  induction a with
  | nil => simp [splitCRLF]
  | cons c cs ih =>
    have hc : c ≠ '\r' := by
      intro he; exact ha (by simp [he])
    have ih' := ih (fun hx => ha (by simp [hx]))
    cases cs with
    | nil => simp [splitCRLF, hc]
    | cons c2 cs' =>
      simp only [List.cons_append] at ih' ⊢
      simp [splitCRLF, hc, ih']

theorem splitCRLF_hdrs (hdrs : List String) (tail : List Char)
    (hh : ∀ h ∈ hdrs, '\r' ∉ h.data) :
    splitCRLF ((hdrs.flatMap (fun h => h.data ++ ['\r', '\n'])) ++
        '\r' :: '\n' :: tail) =
      hdrs.map (fun h => h.data) ++ [] :: splitCRLF tail := by
  induction hdrs with
  | nil => simp [splitCRLF]
  | cons h t ih =>
    have hr : '\r' ∉ h.data := hh h (by simp)
    have ih' := ih (fun x hx => hh x (by simp [hx]))
    simp only [List.flatMap_cons, List.append_assoc, List.cons_append,
      List.nil_append, List.singleton_append]
    rw [splitCRLF_append _ _ hr, ih']
    simp

theorem getLast?_append_ne {α : Type _} (l1 l2 : List α) (h : l2 ≠ []) :
    (l1 ++ l2).getLast? = l2.getLast? := by
  rw [List.getLast?_append]
  cases hg : l2.getLast? with
  | none => exact absurd (List.getLast?_eq_none_iff.mp hg) h
  | some x => simp

theorem termSplit_append (pre segs : List (List Char)) (h : segs ≠ []) :
    (if (pre ++ segs).getLast? = some [] then (pre ++ segs).dropLast
     else pre ++ segs) =
      pre ++ (if segs.getLast? = some [] then segs.dropLast else segs) := by
  rw [getLast?_append_ne _ _ h]
  by_cases hx : segs.getLast? = some []
  · simp [hx, List.dropLast_append_of_ne_nil _ h]
  · simp [hx]

theorem drop_len_succ {α : Type _} (l1 : List α) (x : α) (l2 : List α) :
    (l1 ++ x :: l2).drop (l1.length + 1) = l2 := by
  rw [show l1 ++ x :: l2 = (l1 ++ [x]) ++ l2 by simp, List.drop_left']
  simp

/-- Characterization of `Request.fromStr` on a well-formed raw request
assembled from a request line, CR-free nonempty header lines, and an
optional body tail: the parse fails exactly when the request line does;
on success the headers are the individually parsed header lines with
failures dropped, and the body is the first CR LF-terminated segment of
the tail. -/
theorem parse_assemble (line : String) (hdrs : List String)
    (tail : Option String) (hline : '\r' ∉ line.data)
    (hh : ∀ h ∈ hdrs, h ≠ ("") ∧ '\r' ∉ h.data) :
    Request.fromStr (assemble line hdrs tail) =
      match RequestLine.fromStr line with
      | .error e => .error e
      | .ok rl =>
        .ok ⟨rl, hdrs.filterMap (fun h => (Header.fromStr h).toOption),
             ((splitTermCRLF (tail.getD ("")).data).head?).map String.mk⟩ := by
  have hdata : (assemble line hdrs tail).data =
      line.data ++ '\r' :: '\n' ::
        ((hdrs.flatMap (fun h => h.data ++ ['\r', '\n'])) ++ '\r' :: '\n' ::
          (tail.getD ("")).data) := rfl
  have hsplit : splitCRLF (assemble line hdrs tail).data =
      (line.data :: hdrs.map (fun h => h.data) ++ [[]]) ++
        splitCRLF (tail.getD ("")).data := by
    rw [hdata, splitCRLF_append _ _ hline,
      splitCRLF_hdrs _ _ (fun x hx => (hh x hx).2)]
    simp
  have hterm : splitTermCRLF (assemble line hdrs tail).data =
      (line.data :: hdrs.map (fun h => h.data) ++ [[]]) ++
        splitTermCRLF (tail.getD ("")).data := by
    rw [splitTermCRLF, splitTermCRLF, hsplit]
    exact termSplit_append _ _ (splitCRLF_ne_nil _)
  have hheads : ∀ seg ∈ hdrs.map (fun h => h.data), (!seg.isEmpty) = true := by
    intro seg hseg
    rcases List.mem_map.mp hseg with ⟨h, hmem, rfl⟩
    have hd : h.data ≠ [] := by
      intro hcon
      exact (hh h hmem).1 (by
        calc h = String.mk h.data := rfl
          _ = ("") := by rw [hcon])
    cases hc : h.data with
    | nil => exact absurd hc hd
    | cons a l => simp
  have hmk : ∀ s : String, String.mk s.data = s := fun _ => rfl
  simp only [Request.fromStr]
  rw [hterm]
  simp only [List.cons_append, List.append_assoc, List.singleton_append]
  rw [hmk]
  cases hrl : RequestLine.fromStr line with
  | error e => simp
  | ok rl =>
    simp only [List.takeWhile_append_of_pos hheads]
    have h0 : (!([] : List Char).isEmpty) = true → False := by simp
    rw [List.takeWhile_cons_of_neg (by simp)]
    simp only [List.append_nil, List.nil_append]
    rw [drop_len_succ]
    rw [List.filterMap_map]
    rfl

/-! Helper lemmas about URL prefix matching and routing. -/

theorem dropPre_self (p rest : List Char) : dropPre p (p ++ rest) = some rest := by
  induction p with
  | nil => rfl
  | cons c cs ih => simp [dropPre, ih]

theorem stripPre_self (p s : String) : stripPre p (p ++ s) = some s := by
  simp [stripPre, data_append, dropPre_self, mk_data]

theorem files_ne_root (s : String) : ("/files/") ++ s ≠ ("/") := by
  intro h
  have h2 : ("/files/").data ++ s.data = ("/").data := by
    rw [← data_append, h]
  have h3 : ('/' : Char) :: 'f' :: 'i' :: 'l' :: 'e' :: 's' :: '/' :: s.data =
      ['/'] := h2
  simp at h3

theorem files_ne_ua (s : String) : ("/files/") ++ s ≠ ("/user-agent") := by
  intro h
  have h2 : ("/files/").data ++ s.data = ("/user-agent").data := by
    rw [← data_append, h]
  have h3 : ('/' : Char) :: 'f' :: 'i' :: 'l' :: 'e' :: 's' :: '/' :: s.data =
      ['/', 'u', 's', 'e', 'r', '-', 'a', 'g', 'e', 'n', 't'] := h2
  simp only [List.cons.injEq] at h3
  exact absurd h3.2.1 (by decide)

theorem echo_ne_root (s : String) : ("/echo/") ++ s ≠ ("/") := by
  intro h
  have h2 : ("/echo/").data ++ s.data = ("/").data := by
    rw [← data_append, h]
  have h3 : ('/' : Char) :: 'e' :: 'c' :: 'h' :: 'o' :: '/' :: s.data =
      ['/'] := h2
  simp at h3

theorem echo_ne_ua (s : String) : ("/echo/") ++ s ≠ ("/user-agent") := by
  intro h
  have h2 : ("/echo/").data ++ s.data = ("/user-agent").data := by
    rw [← data_append, h]
  have h3 : ('/' : Char) :: 'e' :: 'c' :: 'h' :: 'o' :: '/' :: s.data =
      ['/', 'u', 's', 'e', 'r', '-', 'a', 'g', 'e', 'n', 't'] := h2
  simp only [List.cons.injEq] at h3
  exact absurd h3.2.1 (by decide)


theorem stripPre_echo_of_files (s : String) :
    stripPre ("/echo/") (("/files/") ++ s) = none := by
  have h2 : (("/files/") ++ s).data = '/' :: 'f' :: 'i' :: 'l' :: 'e' :: 's' ::
      '/' :: s.data := rfl
  simp only [stripPre, h2]
  simp [dropPre]

/-! Helper lemmas about `Response.compressed` and the shapes of
router-produced responses. -/

theorem compressed_status (gz : List Nat → List Nat) (r r' : Response)
    (h : r.compressed gz = some r') : r'.status_code = r.status_code := by
  cases hb : r.body with
  | none =>
    simp only [Response.compressed, hb, Option.some.injEq] at h
    rw [← h]
  | some body =>
    simp only [Response.compressed, hb] at h
    cases hrep : replaceFirstCL (r.headers ++ [Header.ContentEncoding])
        (gz body).length with
    | none => rw [hrep] at h; simp at h
    | some hs' =>
      rw [hrep] at h
      simp only [Option.map_some', Option.some.injEq] at h
      rw [← h]

theorem replaceFirstCL_mem (hs : List Header) (n : Nat) (hs' : List Header)
    (h : replaceFirstCL hs n = some hs') :
    ∀ x ∈ hs', x ∈ hs ∨ ∃ m, x = Header.ContentLength m := by
  induction hs generalizing hs' with
  | nil => simp [replaceFirstCL] at h
  | cons hd t ih =>
    simp only [replaceFirstCL] at h
    by_cases hcl : isCL hd
    · rw [if_pos hcl] at h
      simp only [Option.some.injEq] at h
      subst h
      intro x hx
      rcases List.mem_cons.mp hx with h1 | h1
      · exact Or.inr ⟨n, h1⟩
      · exact Or.inl (List.mem_cons_of_mem _ h1)
    · rw [if_neg hcl] at h
      cases hrep : replaceFirstCL t n with
      | none => rw [hrep] at h; simp at h
      | some t' =>
        rw [hrep] at h
        simp only [Option.map_some', Option.some.injEq] at h
        subst h
        intro x hx
        rcases List.mem_cons.mp hx with h1 | h1
        · exact Or.inl (by simp [h1])
        · rcases ih t' hrep x h1 with h2 | h2
          · exact Or.inl (List.mem_cons_of_mem _ h2)
          · exact Or.inr h2

theorem compressed_headers_mem (gz : List Nat → List Nat) (r r' : Response)
    (h : r.compressed gz = some r') :
    ∀ x ∈ r'.headers, x ∈ r.headers ∨ x = Header.ContentEncoding ∨
      ∃ m, x = Header.ContentLength m := by
  cases hb : r.body with
  | none =>
    simp only [Response.compressed, hb, Option.some.injEq] at h
    subst h
    intro x hx
    simp only at hx
    rcases List.mem_append.mp hx with h1 | h1
    · exact Or.inl h1
    · exact Or.inr (Or.inl (by simpa using h1))
  | some body =>
    simp only [Response.compressed, hb] at h
    cases hrep : replaceFirstCL (r.headers ++ [Header.ContentEncoding])
        (gz body).length with
    | none => rw [hrep] at h; simp at h
    | some hs' =>
      rw [hrep] at h
      simp only [Option.map_some', Option.some.injEq] at h
      subst h
      intro x hx
      simp only at hx
      rcases replaceFirstCL_mem _ _ _ hrep x hx with h1 | h1
      · rcases List.mem_append.mp h1 with h2 | h2
        · exact Or.inl h2
        · exact Or.inr (Or.inl (by simpa using h2))
      · exact Or.inr (Or.inr h1)

/-- The five response shapes the Router can produce (before compression). -/
def routerShape (fs : String → Option (List Nat)) (r : Response) : Prop :=
  r = Response.empty ∨ r = Response.notFound ∨ r = Response.created ∨
  (∃ s, r = Response.text s) ∨ (∃ n, r = Response.file fs n)

theorem route_ok_shape (fs : String → Option (List Nat))
    (wok : String → List Nat → Bool) (rq : Request) (r : Response)
    (ws : List (String × List Nat)) (h : route fs wok rq = (.ok r, ws)) :
    routerShape fs r := by
  unfold route at h
  split at h
  · simp only [Prod.mk.injEq, Except.ok.injEq] at h
    exact Or.inl h.1.symm
  · split at h
    · split at h
      · simp only [Prod.mk.injEq, Except.ok.injEq] at h
        rcases h with ⟨h1, _⟩
        exact Or.inr (Or.inr (Or.inr (Or.inl ⟨_, h1.symm⟩)))
      · simp at h
    · split at h
      · simp only [Prod.mk.injEq, Except.ok.injEq] at h
        rcases h with ⟨h1, _⟩
        exact Or.inr (Or.inr (Or.inr (Or.inl ⟨_, h1.symm⟩)))
      · split at h
        · split at h
          · simp only [Prod.mk.injEq, Except.ok.injEq] at h
            rcases h with ⟨h1, _⟩
            exact Or.inr (Or.inr (Or.inr (Or.inr ⟨_, h1.symm⟩)))
          · split at h
            · simp at h
            · split at h
              · simp only [Prod.mk.injEq, Except.ok.injEq] at h
                exact Or.inr (Or.inr (Or.inl h.1.symm))
              · simp at h
        · simp only [Prod.mk.injEq, Except.ok.injEq] at h
          exact Or.inr (Or.inl h.1.symm)

/-- Status codes any Router-produced response can carry. -/
def statusGood (r : Response) : Prop :=
  r.status_code = 200 ∨ r.status_code = 201 ∨ r.status_code = 404

theorem shape_statusGood (fs : String → Option (List Nat)) (r : Response)
    (h : routerShape fs r) : statusGood r := by
  rcases h with h | h | h | ⟨s, h⟩ | ⟨n, h⟩ <;> subst h
  · exact Or.inl rfl
  · exact Or.inr (Or.inr rfl)
  · exact Or.inr (Or.inl rfl)
  · exact Or.inl rfl
  · unfold Response.file
    cases fs n
    · exact Or.inr (Or.inr rfl)
    · exact Or.inl rfl

theorem shape_headers_displayable (fs : String → Option (List Nat))
    (r : Response) (h : routerShape fs r) :
    ∀ x ∈ r.headers, (Header.display x).isSome := by
  rcases h with h | h | h | ⟨s, h⟩ | ⟨n, h⟩ <;> subst h
  · simp [Response.empty]
  · simp [Response.notFound]
  · simp [Response.created]
  · intro x hx
    rcases List.mem_cons.mp hx with h1 | h1
    · subst h1; rfl
    · rcases List.mem_cons.mp h1 with h2 | h2
      · subst h2; rfl
      · simp at h2
  · unfold Response.file
    cases fs n with
    | none => simp [Response.notFound]
    | some content =>
      intro x hx
      rcases List.mem_cons.mp hx with h1 | h1
      · subst h1; rfl
      · rcases List.mem_cons.mp h1 with h2 | h2
        · subst h2; rfl
        · simp at h2

theorem handle_ok_chain (fs : String → Option (List Nat))
    (wok : String → List Nat → Bool) (gz : List Nat → List Nat)
    (rq : Request) (r : Response) (ws : List (String × List Nat))
    (h : handleRequest fs wok gz rq = (.ok r, ws)) :
    ∃ r₀, routerShape fs r₀ ∧ (r = r₀ ∨ r₀.compressed gz = some r) := by
  unfold handleRequest at h
  split at h
  · simp at h
  · rename_i resp ws1 heq
    split at h
    · split at h
      · rename_i r1 heq2
        simp only [Prod.mk.injEq, Except.ok.injEq] at h
        exact ⟨resp, route_ok_shape _ _ _ _ _ heq, Or.inr (h.1 ▸ heq2)⟩
      · simp at h
    · simp only [Prod.mk.injEq, Except.ok.injEq] at h
      exact ⟨resp, route_ok_shape _ _ _ _ _ heq, Or.inl h.1.symm⟩

theorem statusGood_statusText (r : Response) (h : statusGood r) :
    (statusText r.status_code).isSome := by
  rcases h with h | h | h <;> rw [h] <;> rfl

/-- Invariant: if the response has a body, its first Content-Length header
equals the body's byte length. -/
def clOk (r : Response) : Prop :=
  ∀ b, r.body = some b → firstCL r.headers = some b.length


/-! Claim C1: Content-Length always equals the body's byte length, also
after compression. -/

/-- C1: every Router-produced response with a body (`Response::text` or
`Response::file`), optionally transformed by `Response::compressed`,
carries a ContentLength header whose value is the exact byte length of
its body; compression replaces both body and ContentLength consistently. -/
theorem c1_content_length_matches_body (gz : List Nat → List Nat)
    (fs : String → Option (List Nat)) (s name : String) :
    clOk (Response.text s) ∧ clOk (Response.file fs name) ∧
    (∃ r', (Response.text s).compressed gz = some r' ∧ clOk r') ∧
    (∃ r', (Response.file fs name).compressed gz = some r' ∧ clOk r') := by
  refine ⟨?_, ?_, ?_, ?_⟩
  · intro b hb
    simp only [Response.text, Option.some.injEq] at hb
    subst hb
    rfl
  · intro b hb
    cases hfs : fs name with
    | none =>
      unfold Response.file at hb
      rw [hfs] at hb
      simp [Response.notFound] at hb
    | some content =>
      unfold Response.file at hb ⊢
      rw [hfs] at hb ⊢
      simp only [Option.some.injEq] at hb
      subst hb
      rfl
  · refine ⟨⟨200, [Header.ContentType ContentType.TextPlain,
        Header.ContentLength (gz (strBytes s)).length, Header.ContentEncoding],
        some (gz (strBytes s))⟩, rfl, ?_⟩
    intro b hb
    simp only [Option.some.injEq] at hb
    subst hb
    rfl
  · cases hfs : fs name with
    | none =>
      refine ⟨⟨404, [Header.ContentEncoding], none⟩, ?_, ?_⟩
      · unfold Response.file
        rw [hfs]
        rfl
      · intro b hb
        simp at hb
    | some content =>
      refine ⟨⟨200, [Header.ContentType ContentType.ApplicationOctetStream,
          Header.ContentLength (gz content).length, Header.ContentEncoding],
          some (gz content)⟩, ?_, ?_⟩
      · unfold Response.file
        rw [hfs]
        rfl
      · intro b hb
        simp only [Option.some.injEq] at hb
        subst hb
        rfl

/-- Witness for C1 at concrete inputs. -/
theorem c1_witness :
    clOk (Response.text ("abc")) ∧
    clOk (Response.file (fun _ => none) ("f")) ∧
    (∃ r', (Response.text ("abc")).compressed (fun b => b) = some r' ∧
      clOk r') ∧
    (∃ r', (Response.file (fun _ => none) ("f")).compressed (fun b => b) =
      some r' ∧ clOk r') :=
  c1_content_length_matches_body (fun b => b) (fun _ => none) ("abc") ("f")

/-! Claim C2: reachable status codes are only 200, 201, 404, so the
unimplemented-status `todo!` branch of `write_to` is unreachable. -/

/-- C2: every response reachable from the Router (any of the five
constructors, optionally compressed) has status 200, 201 or 404, and the
status-line serialization is defined on it (the `todo!` branch cannot be
reached). -/
theorem c2_status_codes (fs : String → Option (List Nat))
    (wok : String → List Nat → Bool) (gz : List Nat → List Nat)
    (rq : Request) (r : Response) (ws : List (String × List Nat))
    (h : handleRequest fs wok gz rq = (.ok r, ws)) :
    statusGood r ∧ (statusText r.status_code).isSome := by
  obtain ⟨r₀, hshape, hcase⟩ := handle_ok_chain fs wok gz rq r ws h
  have hst : statusGood r := by
    rcases hcase with rfl | hc
    · exact shape_statusGood fs r hshape
    · have heq := compressed_status gz r₀ r hc
      have h0 := shape_statusGood fs r₀ hshape
      unfold statusGood at h0 ⊢
      rw [heq]
      exact h0
  exact ⟨hst, statusGood_statusText r hst⟩

/-- Witness for C2 on the concrete request GET /. -/
theorem c2_witness :
    statusGood ⟨200, [], none⟩ ∧
    (statusText (Response.mk 200 [] none).status_code).isSome :=
  c2_status_codes (fun _ => none) (fun _ _ => true) (fun b => b)
    ⟨⟨Method.Get, ("/")⟩, [], none⟩ ⟨200, [], none⟩ [] rfl

/-! Claim C9: reachable responses carry only displayable headers, so the
`todo!` branch of Header's Display impl is unreachable. -/

/-- C9: every response reachable from the Router, optionally compressed,
contains only headers whose Display serialization is defined
(ContentType, ContentLength, ContentEncoding), never the `todo!` variants
UserAgent or AcceptEncoding. -/
theorem c9_headers_displayable (fs : String → Option (List Nat))
    (wok : String → List Nat → Bool) (gz : List Nat → List Nat)
    (rq : Request) (r : Response) (ws : List (String × List Nat))
    (h : handleRequest fs wok gz rq = (.ok r, ws)) :
    ∀ x ∈ r.headers, (Header.display x).isSome := by
  obtain ⟨r₀, hshape, hcase⟩ := handle_ok_chain fs wok gz rq r ws h
  rcases hcase with rfl | hc
  · exact shape_headers_displayable fs r hshape
  · intro x hx
    rcases compressed_headers_mem gz r₀ r hc x hx with h1 | h1 | ⟨m, rfl⟩
    · exact shape_headers_displayable fs r₀ hshape x h1
    · rw [h1]
      rfl
    · rfl

/-- Witness for C9: the ContentEncoding header of the response to a
concrete GET /echo/hello request with Accept-Encoding: gzip is
displayable. -/
theorem c9_witness : (Header.display Header.ContentEncoding).isSome :=
  c9_headers_displayable (fun _ => none) (fun _ _ => true) (fun b => b)
    ⟨⟨Method.Get, ("/echo/hello")⟩, [Header.AcceptEncoding], none⟩
    ⟨200, [Header.ContentType ContentType.TextPlain,
      Header.ContentLength (strBytes ("hello")).length,
      Header.ContentEncoding], some (strBytes ("hello"))⟩ [] rfl
    Header.ContentEncoding (by decide)

/-! Claim C3: the `/` route.  The claim as stated is false: when the
request carries Accept-Encoding: gzip, the compression gate appends a
Content-Encoding header even to the header-less `/` response. -/

/-- C3 counterexample: a parsed GET / request with Accept-Encoding: gzip
produces a response whose header list is `[ContentEncoding]`, not empty. -/
theorem c3_counterexample :
    handleRaw (fun _ => none) (fun _ _ => true) (fun b => b)
      ("GET / HTTP/1.1\r\nAccept-Encoding: gzip\r\n\r\n") =
      .ok ⟨200, [Header.ContentEncoding], none⟩ ∧
    ([Header.ContentEncoding] : List Header) ≠ [] := ⟨rfl, by decide⟩

/-- C3 (amended): for every parsed request whose URL is exactly `/`, the
response has status 200 and no body; its header list is empty when the
request has no AcceptEncoding header, and is exactly `[ContentEncoding]`
when it has one; no file writes occur. -/
theorem c3_root_response (fs : String → Option (List Nat))
    (wok : String → List Nat → Bool) (gz : List Nat → List Nat)
    (rq : Request) (h : rq.line.url = ("/")) :
    (handleRequest fs wok gz rq).1 =
      .ok ⟨200,
        if rq.headers.contains Header.AcceptEncoding
        then [Header.ContentEncoding] else [], none⟩ ∧
    (handleRequest fs wok gz rq).2 = [] := by
  have hroute : route fs wok rq = (.ok Response.empty, []) := by
    unfold route
    rw [if_pos h]
  unfold handleRequest
  rw [hroute]
  by_cases hae : rq.headers.contains Header.AcceptEncoding = true
  · simp only [hae, if_true]
    exact ⟨rfl, rfl⟩
  · simp only [Bool.not_eq_true] at hae
    simp only [hae]
    exact ⟨rfl, rfl⟩

/-- Witness for the amended C3 on a concrete gzip-accepting request. -/
theorem c3_witness :
    (handleRequest (fun _ => none) (fun _ _ => true) (fun b => b)
      ⟨⟨Method.Get, ("/")⟩, [Header.AcceptEncoding], none⟩).1 =
      .ok ⟨200,
        if ([Header.AcceptEncoding] : List Header).contains
            Header.AcceptEncoding
        then [Header.ContentEncoding] else [], none⟩ ∧
    (handleRequest (fun _ => none) (fun _ _ => true) (fun b => b)
      ⟨⟨Method.Get, ("/")⟩, [Header.AcceptEncoding], none⟩).2 = [] :=
  c3_root_response (fun _ => none) (fun _ _ => true) (fun b => b)
    ⟨⟨Method.Get, ("/")⟩, [Header.AcceptEncoding], none⟩ rfl

/-! Claim C4: header parsing and colons.  The claim as stated is false:
the code splits on every colon, so a value containing a colon is cut at
the value's first colon rather than taken whole. -/

/-- C4 counterexample: `User-Agent: a:b` parses to value `a`, not the
full text `a:b` after the first colon. -/
theorem c4_counterexample :
    Header.fromStr ("User-Agent: a:b") = .ok (Header.UserAgent ("a")) ∧
    Header.UserAgent ("a") ≠ Header.UserAgent ("a:b") := ⟨rfl, by decide⟩

/-- C4 (amended): header parsing splits the line at every colon; the name
is the trimmed text before the first colon and the value is the trimmed
text between the first and second colons (everything from the second
colon on is ignored): appending `:w` to a colon-free value leaves the
parsed value unchanged. -/
theorem c4_split_every_colon (v w : List Char) (hv : (':') ∉ v) :
    Header.fromStr (String.mk (("User-Agent:").data ++ v)) =
      .ok (Header.UserAgent (String.mk (trimChars v))) ∧
    Header.fromStr (String.mk (("User-Agent:").data ++ v ++ ':' :: w)) =
      .ok (Header.UserAgent (String.mk (trimChars v))) := by
  have hv2 : ∀ c ∈ v, (fun c => decide (c = ':')) c = false := by
    intro c hc
    simp only [decide_eq_false_iff_not]
    intro he
    exact hv (he ▸ hc)
  constructor
  · simp only [Header.fromStr]
    rw [show (['U', 's', 'e', 'r', '-', 'A', 'g', 'e', 'n', 't', ':'] ++ v :
        List Char) =
      ['U', 's', 'e', 'r', '-', 'A', 'g', 'e', 'n', 't'] ++ ':' :: v from rfl]
    rw [splitBy_append_sep (fun c => decide (c = ':'))
      ['U', 's', 'e', 'r', '-', 'A', 'g', 'e', 'n', 't'] v ':' rfl (by decide)]
    rw [splitBy_nosplit (fun c => decide (c = ':')) v hv2]
    rfl
  · simp only [Header.fromStr]
    rw [show ((['U', 's', 'e', 'r', '-', 'A', 'g', 'e', 'n', 't', ':'] ++ v)
        ++ ':' :: w : List Char) =
      ['U', 's', 'e', 'r', '-', 'A', 'g', 'e', 'n', 't'] ++
        ':' :: (v ++ ':' :: w) from rfl]
    rw [splitBy_append_sep (fun c => decide (c = ':'))
      ['U', 's', 'e', 'r', '-', 'A', 'g', 'e', 'n', 't'] (v ++ ':' :: w) ':'
      rfl (by decide)]
    rw [splitBy_append_sep (fun c => decide (c = ':')) v w ':' rfl hv2]
    rfl

/-- Witness for the amended C4 at value ` a` and discarded tail `b`. -/
theorem c4_witness :
    Header.fromStr (String.mk (("User-Agent:").data ++ (' ' :: ['a']))) =
      .ok (Header.UserAgent (String.mk (trimChars (' ' :: ['a'])))) ∧
    Header.fromStr (String.mk (("User-Agent:").data ++ (' ' :: ['a']) ++
        ':' :: ['b'])) =
      .ok (Header.UserAgent (String.mk (trimChars (' ' :: ['a'])))) :=
  c4_split_every_colon (' ' :: ['a']) ['b'] (by decide)

/-! Claim C5: the request body.  The claim as stated is false: the parser
takes only the next CR LF-separated segment after the blank line as the
body, so CR LF sequences inside the remaining bytes are not preserved. -/

/-- C5 counterexample: remaining bytes `line1\r\nline2` after the blank
line parse to body `line1`, not to the verbatim remainder. -/
theorem c5_counterexample :
    Request.fromStr ("GET / HTTP/1.1\r\n\r\nline1\r\nline2") =
      .ok ⟨⟨Method.Get, ("/")⟩, [], some ("line1")⟩ ∧
    some ("line1") ≠ some ("line1\r\nline2") := ⟨rfl, by decide⟩

/-- C5 (amended): the body is only the first CR LF-terminated segment of
the bytes after the blank line — any bytes from the next CR LF on are
discarded, and one trailing CR LF-terminated empty segment is dropped; a
CR-free nonempty remainder is taken verbatim; an absent remainder gives
body none (not an empty string). -/
theorem c5_body_first_segment (line : String) (hdrs : List String)
    (rl : RequestLine) (b1 b2 : String) (hline : '\r' ∉ line.data)
    (hh : ∀ h ∈ hdrs, h ≠ ("") ∧ '\r' ∉ h.data)
    (hrl : RequestLine.fromStr line = .ok rl)
    (hb1r : '\r' ∉ b1.data) (hb1ne : b1 ≠ ("")) :
    (Request.fromStr (assemble line hdrs (some (b1 ++ ("\r\n") ++ b2)))).map
        (fun rq => rq.body) = .ok (some b1) ∧
    (Request.fromStr (assemble line hdrs (some b1))).map
        (fun rq => rq.body) = .ok (some b1) ∧
    (Request.fromStr (assemble line hdrs none)).map
        (fun rq => rq.body) = .ok none := by
  have hb1data : b1.data ≠ [] := by
    intro hcon
    exact hb1ne (by calc b1 = String.mk b1.data := rfl
      _ = ("") := by rw [hcon])
  refine ⟨?_, ?_, ?_⟩
  · rw [parse_assemble _ _ _ hline hh, hrl]
    have hdata1 : ((some (b1 ++ ("\r\n") ++ b2)).getD ("")).data =
        b1.data ++ '\r' :: '\n' :: b2.data := by
      show (b1 ++ ("\r\n") ++ b2).data = _
      rw [data_append, data_append, List.append_assoc]
      rfl
    have hterm1 : (splitTermCRLF ((some (b1 ++ ("\r\n") ++ b2)).getD
        ("")).data).head? = some b1.data := by
      rw [hdata1]
      unfold splitTermCRLF
      rw [splitCRLF_append _ _ hb1r]
      cases hseg : splitCRLF b2.data with
      | nil => exact absurd hseg (splitCRLF_ne_nil _)
      | cons s0 ss =>
        by_cases hlast : ((b1.data :: s0 :: ss).getLast? = some ([] :
            List Char))
        · rw [if_pos hlast]
          simp
        · rw [if_neg hlast]
          rfl
    rw [hterm1]
    rfl
  · rw [parse_assemble _ _ _ hline hh, hrl]
    have hterm2 : (splitTermCRLF ((some b1).getD ("")).data).head? =
        some b1.data := by
      show (splitTermCRLF b1.data).head? = _
      unfold splitTermCRLF
      rw [splitCRLF_nosplit _ hb1r]
      rw [if_neg (by simp [hb1data])]
      rfl
    rw [hterm2]
    rfl
  · rw [parse_assemble _ _ _ hline hh, hrl]
    rfl

/-- Witness for the amended C5 on a concrete request whose remainder is
`x\r\ny`. -/
theorem c5_witness :
    (Request.fromStr (assemble ("GET / HTTP/1.1") []
        (some (("x") ++ ("\r\n") ++ ("y"))))).map
        (fun rq => rq.body) = .ok (some ("x")) ∧
    (Request.fromStr (assemble ("GET / HTTP/1.1") [] (some ("x")))).map
        (fun rq => rq.body) = .ok (some ("x")) ∧
    (Request.fromStr (assemble ("GET / HTTP/1.1") [] none)).map
        (fun rq => rq.body) = .ok none :=
  c5_body_first_segment ("GET / HTTP/1.1") [] ⟨Method.Get, ("/")⟩
    ("x") ("y") (by decide) (by decide) rfl (by decide) (by decide)

/-! Claim C6: error handling in parsing — request-line failures abort,
per-header failures only drop that header. -/

/-- C6: for an assembled raw request, a request-line parse failure makes
the whole request parse fail with that error, while each header line is
parsed individually, failing headers (including Accept-Encoding with a
value other than gzip) are dropped via `toOption`, and the surviving
headers appear in order; the parse succeeds whenever the request line
parses. -/
theorem c6_parse_error_policy (line : String) (hdrs : List String)
    (hline : '\r' ∉ line.data)
    (hh : ∀ h ∈ hdrs, h ≠ ("") ∧ '\r' ∉ h.data) :
    (∀ e, RequestLine.fromStr line = .error e →
      Request.fromStr (assemble line hdrs none) = .error e) ∧
    (∀ rl, RequestLine.fromStr line = .ok rl →
      Request.fromStr (assemble line hdrs none) =
        .ok ⟨rl, hdrs.filterMap (fun h => (Header.fromStr h).toOption),
          none⟩) ∧
    (Header.fromStr ("Accept-Encoding: deflate")).toOption = none := by
  refine ⟨?_, ?_, rfl⟩
  · intro e he
    rw [parse_assemble _ _ _ hline hh, he]
  · intro rl hrl
    rw [parse_assemble _ _ _ hline hh, hrl]
    rfl

/-- Witness for C6: a bad method aborts the parse, while with a good
request line an unknown header and a non-gzip Accept-Encoding are dropped
and the User-Agent header survives. -/
theorem c6_witness :
    Request.fromStr (assemble ("FETCH / HTTP/1.1")
      [("User-Agent: x")] none) = .error ("is not a valid HTTP method") ∧
    Request.fromStr (assemble ("GET / HTTP/1.1")
      [("User-Agent: x"), ("Bogus: y"), ("Accept-Encoding: deflate")]
      none) =
      .ok ⟨⟨Method.Get, ("/")⟩, [Header.UserAgent ("x")], none⟩ := by
  constructor
  · exact (c6_parse_error_policy ("FETCH / HTTP/1.1") [("User-Agent: x")]
      (by decide) (by decide)).1 ("is not a valid HTTP method") rfl
  · exact ((c6_parse_error_policy ("GET / HTTP/1.1")
      [("User-Agent: x"), ("Bogus: y"), ("Accept-Encoding: deflate")]
      (by decide) (by decide)).2.1 ⟨Method.Get, ("/")⟩ rfl).trans rfl

/-! Claim C7: GET /files/<name> — success and failure behavior of the
File Gateway read. -/

/-- C7: for every GET request to `/files/<name>`, a successful File
Gateway read yields 200 with Content-Type application/octet-stream,
Content-Length equal to the file's byte length and body equal to the
file bytes; any read failure yields 404 with no headers and no body; no
file writes occur. -/
theorem c7_files_get (fs : String → Option (List Nat))
    (wok : String → List Nat → Bool) (rq : Request) (name : String)
    (hm : rq.line.method = Method.Get)
    (hurl : rq.line.url = ("/files/") ++ name) :
    (∀ content, fs name = some content →
      route fs wok rq = (.ok ⟨200,
        [Header.ContentType ContentType.ApplicationOctetStream,
         Header.ContentLength content.length], some content⟩, [])) ∧
    (fs name = none → route fs wok rq = (.ok ⟨404, [], none⟩, [])) := by
  have hr : route fs wok rq = (.ok (Response.file fs name), []) := by
    unfold route
    rw [hurl, hm]
    rw [if_neg (files_ne_root name), if_neg (files_ne_ua name)]
    rw [stripPre_echo_of_files name, stripPre_self ("/files/") name]
  constructor
  · intro content hfs
    rw [hr]
    unfold Response.file
    rw [hfs]
  · intro hfs
    rw [hr]
    unfold Response.file
    rw [hfs]
    rfl

/-- Witness for C7 with a concrete one-file store and a successful read. -/
theorem c7_witness :
    route (fun n => if n = ("f") then some [7, 8] else none)
        (fun _ _ => true) ⟨⟨Method.Get, ("/files/f")⟩, [], none⟩ =
      (.ok ⟨200, [Header.ContentType ContentType.ApplicationOctetStream,
        Header.ContentLength ([7, 8] : List Nat).length],
        some [7, 8]⟩, []) :=
  (c7_files_get (fun n => if n = ("f") then some [7, 8] else none)
    (fun _ _ => true) ⟨⟨Method.Get, ("/files/f")⟩, [], none⟩ ("f")
    rfl (by decide)).1 [7, 8] (by decide)

/-! Claim C8: /echo with Accept-Encoding: gzip — compressed round trip. -/

/-- C8: for every request to `/echo/<suffix>` whose headers contain
AcceptEncoding, the final response is 200, carries a ContentEncoding
header, its body is the gzip-compressed bytes of `<suffix>`, and
decompressing the body with any left inverse of the compressor yields
exactly the bytes of `<suffix>`. -/
theorem c8_echo_gzip_roundtrip (fs : String → Option (List Nat))
    (wok : String → List Nat → Bool) (gz gunzip : List Nat → List Nat)
    (hround : ∀ b, gunzip (gz b) = b) (rq : Request) (suffix : String)
    (hurl : rq.line.url = ("/echo/") ++ suffix)
    (hae : rq.headers.contains Header.AcceptEncoding = true) :
    ∃ r, (handleRequest fs wok gz rq).1 = .ok r ∧ r.status_code = 200 ∧
      Header.ContentEncoding ∈ r.headers ∧
      r.body = some (gz (strBytes suffix)) ∧
      r.body.map gunzip = some (strBytes suffix) := by
  have hroute : route fs wok rq = (.ok (Response.text suffix), []) := by
    unfold route
    rw [hurl]
    rw [if_neg (echo_ne_root suffix), if_neg (echo_ne_ua suffix),
      stripPre_self ("/echo/") suffix]
  have hcomp : (Response.text suffix).compressed gz =
      some ⟨200, [Header.ContentType ContentType.TextPlain,
        Header.ContentLength (gz (strBytes suffix)).length,
        Header.ContentEncoding], some (gz (strBytes suffix))⟩ := rfl
  have hh : (handleRequest fs wok gz rq).1 =
      .ok ⟨200, [Header.ContentType ContentType.TextPlain,
        Header.ContentLength (gz (strBytes suffix)).length,
        Header.ContentEncoding], some (gz (strBytes suffix))⟩ := by
    unfold handleRequest
    rw [hroute]
    simp only [hae, if_true, hcomp]
  refine ⟨_, hh, rfl, by simp, rfl, by simp [hround]⟩

/-- Witness for C8 on GET /echo/hello with the identity as
compressor/decompressor pair. -/
theorem c8_witness :
    ∃ r, (handleRequest (fun _ => none) (fun _ _ => true) (fun b => b)
        ⟨⟨Method.Get, ("/echo/hello")⟩, [Header.AcceptEncoding], none⟩).1 =
      .ok r ∧ r.status_code = 200 ∧
      Header.ContentEncoding ∈ r.headers ∧
      r.body = some ((fun b => b) (strBytes ("hello"))) ∧
      r.body.map (fun b => b) = some (strBytes ("hello")) :=
  c8_echo_gzip_roundtrip (fun _ => none) (fun _ _ => true)
    (fun b => b) (fun b => b) (fun _ => rfl)
    ⟨⟨Method.Get, ("/echo/hello")⟩, [Header.AcceptEncoding], none⟩
    ("hello") (by decide) rfl

/-! Claim C10: POST /files/<name> without a body fails before any File
Gateway write, producing no response. -/

/-- C10: for every POST request to `/files/<name>` whose parsed body is
absent, the handler returns an error before any File Gateway call: the
write log is empty (no file created or modified) and no response is
produced. -/
theorem c10_post_no_body (fs : String → Option (List Nat))
    (wok : String → List Nat → Bool) (gz : List Nat → List Nat)
    (rq : Request) (name : String)
    (hm : rq.line.method = Method.Post)
    (hurl : rq.line.url = ("/files/") ++ name)
    (hb : rq.body = none) :
    handleRequest fs wok gz rq =
      (.error ("POST request to /files must have a body"), []) := by
  have hr : route fs wok rq =
      (.error ("POST request to /files must have a body"), []) := by
    unfold route
    rw [hurl, hm, hb]
    rw [if_neg (files_ne_root name), if_neg (files_ne_ua name)]
    rw [stripPre_echo_of_files name, stripPre_self ("/files/") name]
  unfold handleRequest
  rw [hr]

/-- Witness for C10 on a concrete body-less POST /files/f request. -/
theorem c10_witness :
    handleRequest (fun _ => none) (fun _ _ => true) (fun b => b)
      ⟨⟨Method.Post, ("/files/f")⟩, [], none⟩ =
      (.error ("POST request to /files must have a body"), []) :=
  c10_post_no_body (fun _ => none) (fun _ _ => true) (fun b => b)
    ⟨⟨Method.Post, ("/files/f")⟩, [], none⟩ ("f") rfl (by decide) rfl

end Butler
